import Mathlib

/-!
Verification of the SimoDistribution payment splitter.

The repository contains two near-duplicate variants of the on-chain entry
point `process_instruction`:
  - src/src/lib.rs          (the "lib" variant)
  - src/contract/contract.rs (the "contract" variant)

Both parse an instruction byte string (8-byte little-endian amount, then two
optional one-byte referrer flags), compute percentage shares for Treasury,
FirstReferrer, SecondReferrer and Team, and issue transfers in a fixed order.
Account extraction and the system-program identity check are host-ledger
concerns (spec sections 4 and 9) and are not part of the split computation;
the embedding below models the instruction-data path and the transfer plan.

Machine arithmetic: the Rust code uses plain `*`, `-` and `+` on u64.  In a
release build (the default for on-chain deployment; the repository snapshot
carries no overflow-checks profile) these wrap modulo 2^64, so the embedding
uses explicit wrapping operations on Nat.
-/

namespace Simo

/-- Recipient roles, a closed enumeration (spec section 3). -/
inductive Role where
  | Treasury
  | Team
  | FirstReferrer
  | SecondReferrer
deriving DecidableEq, Repr

/-- `const TREASURY_PCT: u8 = 50;` (identical in both variants). -/
def TREASURY_PCT : Nat := 50

/-- `const FIRST_REF_PCT: u8 = 20;` (identical in both variants). -/
def FIRST_REF_PCT : Nat := 20

/-- `const SECOND_REF_PCT: u8 = 5;` (identical in both variants). -/
def SECOND_REF_PCT : Nat := 5

/-- `const FIRST_REF_MAX: u64 = 200_000_000;` (identical in both variants). -/
def FIRST_REF_MAX : Nat := 200000000

/-- `const SECOND_REF_MAX: u64 = 50_000_000;` (identical in both variants). -/
def SECOND_REF_MAX : Nat := 50000000

/-- Wrapping u64 multiplication, the release-mode semantics of Rust `a * b`. -/
def wmul (a b : Nat) : Nat := (a * b) % 2 ^ 64

/-- Wrapping u64 subtraction, the release-mode semantics of Rust `a - b`
for operands already reduced below 2^64. -/
def wsub (a b : Nat) : Nat := (a + 2 ^ 64 - b) % 2 ^ 64

/-- Wrapping u64 addition, the release-mode semantics of Rust `a + b`. -/
def wadd (a b : Nat) : Nat := (a + b) % 2 ^ 64

/-- `let treasury_amount = amount * u64::from(TREASURY_PCT) / 100;`
(lib.rs line 70, contract.rs line 75 - identical). -/
def treasury_amount (amount : Nat) : Nat :=
  wmul amount TREASURY_PCT / 100

/-- `let first_ref_amount = if has_first_referrer {
      (amount * u64::from(FIRST_REF_PCT) / 100).min(FIRST_REF_MAX) } else { 0 };`
(lib.rs lines 72-74, contract.rs lines 77-79 - identical). -/
def first_ref_amount (amount : Nat) (has_first_referrer : Bool) : Nat :=
  if has_first_referrer then
    min (wmul amount FIRST_REF_PCT / 100) FIRST_REF_MAX
  else 0

/-- `let second_ref_amount = if has_second_referrer {
      (amount * u64::from(SECOND_REF_PCT) / 100).min(SECOND_REF_MAX) } else { 0 };`
(lib.rs lines 76-78, contract.rs lines 81-83 - identical). -/
def second_ref_amount (amount : Nat) (has_second_referrer : Bool) : Nat :=
  if has_second_referrer then
    min (wmul amount SECOND_REF_PCT / 100) SECOND_REF_MAX
  else 0

/-- `let second_ref_portion = if !has_second_referrer {
      (amount * u64::from(SECOND_REF_PCT) / 100).min(SECOND_REF_MAX) } else { 0 };`
(contract.rs lines 85-87; this binding exists only in the contract variant). -/
def second_ref_portion (amount : Nat) (has_second_referrer : Bool) : Nat :=
  if !has_second_referrer then
    min (wmul amount SECOND_REF_PCT / 100) SECOND_REF_MAX
  else 0

/-- `let team_amount = amount - treasury_amount - first_ref_amount - second_ref_amount;`
(lib.rs line 80). -/
def team_amount_lib (amount : Nat) (f1 f2 : Bool) : Nat :=
  wsub (wsub (wsub amount (treasury_amount amount))
      (first_ref_amount amount f1))
    (second_ref_amount amount f2)

/-- `let team_amount = amount - treasury_amount - first_ref_amount
      - second_ref_amount + second_ref_portion;`
(contract.rs line 89). -/
def team_amount_contract (amount : Nat) (f1 f2 : Bool) : Nat :=
  wadd (wsub (wsub (wsub amount (treasury_amount amount))
        (first_ref_amount amount f1))
      (second_ref_amount amount f2))
    (second_ref_portion amount f2)

/-- The sequence of transfers invoked by lib.rs lines 83-107: Treasury and
Team unconditionally, then FirstReferrer under
`has_first_referrer && first_ref_amount > 0`, then SecondReferrer under
`has_second_referrer && second_ref_amount > 0`. -/
def compute_plan_lib (amount : Nat) (f1 f2 : Bool) : List (Role × Nat) :=
  [(Role.Treasury, treasury_amount amount),
   (Role.Team, team_amount_lib amount f1 f2)]
  ++ (if f1 && decide (0 < first_ref_amount amount f1) then
        [(Role.FirstReferrer, first_ref_amount amount f1)] else [])
  ++ (if f2 && decide (0 < second_ref_amount amount f2) then
        [(Role.SecondReferrer, second_ref_amount amount f2)] else [])

/-- The sequence of transfers invoked by contract.rs lines 92-118.  The
referrer account is `Some` exactly when its flag is set (contract.rs lines
65-66), so the emission condition for each referrer entry is again the flag
conjoined with a positive amount; the team amount is the contract variant. -/
def compute_plan_contract (amount : Nat) (f1 f2 : Bool) : List (Role × Nat) :=
  [(Role.Treasury, treasury_amount amount),
   (Role.Team, team_amount_contract amount f1 f2)]
  ++ (if f1 && decide (0 < first_ref_amount amount f1) then
        [(Role.FirstReferrer, first_ref_amount amount f1)] else [])
  ++ (if f2 && decide (0 < second_ref_amount amount f2) then
        [(Role.SecondReferrer, second_ref_amount amount f2)] else [])

/-- The only error the modelled instruction-data path can raise
(`ProgramError::InvalidInstructionData`, lib.rs line 46 / contract.rs line 53).
Account-related errors belong to the host environment and are out of scope. -/
inductive ProgramError where
  | InvalidInstructionData
deriving DecidableEq, Repr

/-- `u64::from_le_bytes(instruction_data[0..8].try_into().unwrap())`:
little-endian read of the first eight bytes. -/
def readU64LE (d : List Nat) : Nat :=
  d.getD 0 0
  + 256 * (d.getD 1 0
  + 256 * (d.getD 2 0
  + 256 * (d.getD 3 0
  + 256 * (d.getD 4 0
  + 256 * (d.getD 5 0
  + 256 * (d.getD 6 0
  + 256 * (d.getD 7 0)))))))

/-- `instruction_data.get(8).map_or(false, |&flag| flag != 0)`: an absent
byte yields `false`, a present byte yields its non-zero test. -/
def flagAt (d : List Nat) (i : Nat) : Bool :=
  match d.get? i with
  | some b => b != 0
  | none => false

/-- The instruction-data path of lib.rs `process_instruction` (lines 39-110):
reject inputs shorter than 8 bytes, otherwise parse amount and flags and
produce the transfer plan. -/
def process_instruction_lib (instruction_data : List Nat) :
    Except ProgramError (List (Role × Nat)) :=
  if instruction_data.length < 8 then
    Except.error ProgramError.InvalidInstructionData
  else
    Except.ok (compute_plan_lib (readU64LE instruction_data)
      (flagAt instruction_data 8) (flagAt instruction_data 9))

/-- The instruction-data path of contract.rs `process_instruction`
(lines 46-121): identical parsing, contract-variant plan. -/
def process_instruction_contract (instruction_data : List Nat) :
    Except ProgramError (List (Role × Nat)) :=
  if instruction_data.length < 8 then
    Except.error ProgramError.InvalidInstructionData
  else
    Except.ok (compute_plan_contract (readU64LE instruction_data)
      (flagAt instruction_data 8) (flagAt instruction_data 9))

/-- Sum of all amounts in a transfer plan. -/
def planSum (plan : List (Role × Nat)) : Nat :=
  plan.foldr (fun p acc => p.2 + acc) 0

/-! Arithmetic helper lemmas about the wrapping operations. -/

lemma wmul_eq_of_lt {a b : Nat} (h : a * b < 2 ^ 64) : wmul a b = a * b :=
  Nat.mod_eq_of_lt h

lemma wadd_eq_of_lt {a b : Nat} (h : a + b < 2 ^ 64) : wadd a b = a + b :=
  Nat.mod_eq_of_lt h

lemma wsub_eq_of_le {a b : Nat} (hb : b ≤ a) (ha : a < 2 ^ 64) :
    wsub a b = a - b := by
  unfold wsub
  rw [show a + 2 ^ 64 - b = (a - b) + 1 * 2 ^ 64 by omega,
    Nat.add_mul_mod_self_right]
  exact Nat.mod_eq_of_lt (by omega)

lemma wsub_lt (a b : Nat) : wsub a b < 2 ^ 64 :=
  Nat.mod_lt _ (by norm_num)

lemma div_add_div_le (x y n : Nat) (hn : 0 < n) :
    x / n + y / n ≤ (x + y) / n := by
  rw [Nat.le_div_iff_mul_le hn]
  calc (x / n + y / n) * n = x / n * n + y / n * n := by ring
    _ ≤ x + y := Nat.add_le_add (Nat.div_mul_le_self x n) (Nat.div_mul_le_self y n)

lemma pct_sum_le (a : Nat) :
    a * 50 / 100 + a * 20 / 100 + a * 5 / 100 ≤ a := by
  have k1 : a * 50 / 100 + a * 20 / 100 ≤ (a * 50 + a * 20) / 100 :=
    div_add_div_le _ _ _ (by norm_num)
  have k2 : (a * 50 + a * 20) / 100 + a * 5 / 100
      ≤ (a * 50 + a * 20 + a * 5) / 100 :=
    div_add_div_le _ _ _ (by norm_num)
  have k3 : a * 50 + a * 20 + a * 5 = a * 75 := by ring
  have k4 : a * 75 / 100 ≤ a * 100 / 100 :=
    Nat.div_le_div_right (by omega)
  have k5 : a * 100 / 100 = a := by omega
  omega

/-! Unfolded forms of the share computations in the overflow-free region. -/

lemma treasury_eq {a : Nat} (h : a * 50 < 2 ^ 64) :
    treasury_amount a = a * 50 / 100 := by
  unfold treasury_amount wmul TREASURY_PCT
  rw [Nat.mod_eq_of_lt h]

lemma first_eq {a : Nat} (f1 : Bool) (h : a * 20 < 2 ^ 64) :
    first_ref_amount a f1
      = if f1 then min (a * 20 / 100) FIRST_REF_MAX else 0 := by
  unfold first_ref_amount wmul FIRST_REF_PCT
  rw [Nat.mod_eq_of_lt h]

lemma second_eq {a : Nat} (f2 : Bool) (h : a * 5 < 2 ^ 64) :
    second_ref_amount a f2
      = if f2 then min (a * 5 / 100) SECOND_REF_MAX else 0 := by
  unfold second_ref_amount wmul SECOND_REF_PCT
  rw [Nat.mod_eq_of_lt h]

lemma portion_eq {a : Nat} (f2 : Bool) (h : a * 5 < 2 ^ 64) :
    second_ref_portion a f2
      = if f2 then 0 else min (a * 5 / 100) SECOND_REF_MAX := by
  unfold second_ref_portion wmul SECOND_REF_PCT
  rw [Nat.mod_eq_of_lt h]
  cases f2 <;> simp

lemma first_le {a : Nat} (f1 : Bool) (h : a * 20 < 2 ^ 64) :
    first_ref_amount a f1 ≤ a * 20 / 100 := by
  rw [first_eq f1 h]; cases f1 <;> simp [min_le_left]

lemma second_le {a : Nat} (f2 : Bool) (h : a * 5 < 2 ^ 64) :
    second_ref_amount a f2 ≤ a * 5 / 100 := by
  rw [second_eq f2 h]; cases f2 <;> simp [min_le_left]

lemma portion_le {a : Nat} (f2 : Bool) (h : a * 5 < 2 ^ 64) :
    second_ref_portion a f2 ≤ a * 5 / 100 := by
  rw [portion_eq f2 h]; cases f2 <;> simp [min_le_left]

/-- In the overflow-free region the three percentage shares fit inside the
amount, so the team subtraction cannot underflow. -/
lemma shares_le {a : Nat} (f1 f2 : Bool) (h : a * 50 < 2 ^ 64) :
    treasury_amount a + first_ref_amount a f1 + second_ref_amount a f2 ≤ a := by
  have h20 : a * 20 < 2 ^ 64 := by omega
  have h5 : a * 5 < 2 ^ 64 := by omega
  have ht := treasury_eq h
  have hf := first_le f1 h20
  have hs := second_le f2 h5
  have hp := pct_sum_le a
  omega

/-- In the overflow-free region the lib-variant team amount is the exact
natural-number remainder. -/
lemma team_lib_eq {a : Nat} (f1 f2 : Bool) (h : a * 50 < 2 ^ 64) :
    team_amount_lib a f1 f2
      = a - treasury_amount a - first_ref_amount a f1
        - second_ref_amount a f2 := by
  have hle := shares_le f1 f2 h
  have ha : a < 2 ^ 64 := by omega
  unfold team_amount_lib
  have e1 : wsub a (treasury_amount a) = a - treasury_amount a :=
    wsub_eq_of_le (by omega) ha
  rw [e1]
  have e2 : wsub (a - treasury_amount a) (first_ref_amount a f1)
      = a - treasury_amount a - first_ref_amount a f1 :=
    wsub_eq_of_le (by omega) (by omega)
  rw [e2]
  exact wsub_eq_of_le (by omega) (by omega)

lemma team_lib_le {a : Nat} (f1 f2 : Bool) (h : a * 50 < 2 ^ 64) :
    team_amount_lib a f1 f2 ≤ a := by
  rw [team_lib_eq f1 f2 h]; omega

/-- In the overflow-free region the contract-variant team amount is the lib
team amount plus the (re-added) unclaimed second-referrer portion. -/
lemma team_contract_eq {a : Nat} (f1 f2 : Bool) (h : a * 50 < 2 ^ 64) :
    team_amount_contract a f1 f2
      = team_amount_lib a f1 f2 + second_ref_portion a f2 := by
  have h5 : a * 5 < 2 ^ 64 := by omega
  have hp := portion_le f2 h5
  have htl := team_lib_le f1 f2 h
  have hdiv : a * 5 / 100 ≤ a := by omega
  have hlt : team_amount_lib a f1 f2 + second_ref_portion a f2 < 2 ^ 64 := by
    omega
  calc team_amount_contract a f1 f2
      = wadd (team_amount_lib a f1 f2) (second_ref_portion a f2) := rfl
    _ = team_amount_lib a f1 f2 + second_ref_portion a f2 :=
        wadd_eq_of_lt hlt

lemma team_contract_le {a : Nat} (f1 f2 : Bool) (h : a * 50 < 2 ^ 64) :
    team_amount_contract a f1 f2 ≤ a := by
  have h5 : a * 5 < 2 ^ 64 := by omega
  have hp := portion_le f2 h5
  have ht := treasury_eq h
  have hd : a * 5 / 100 ≤ a * 50 / 100 := Nat.div_le_div_right (by omega)
  have hle := shares_le f1 f2 h
  rw [team_contract_eq f1 f2 h, team_lib_eq f1 f2 h]
  omega

/-! Plan-sum decompositions. -/

lemma first_zero_of_skip {a : Nat} {f1 : Bool}
    (h : (f1 && decide (0 < first_ref_amount a f1)) = false) :
    first_ref_amount a f1 = 0 := by
  cases f1
  · simp [first_ref_amount]
  · simp at h; omega

lemma second_zero_of_skip {a : Nat} {f2 : Bool}
    (h : (f2 && decide (0 < second_ref_amount a f2)) = false) :
    second_ref_amount a f2 = 0 := by
  cases f2
  · simp [second_ref_amount]
  · simp at h; omega

lemma planSum_lib (a : Nat) (f1 f2 : Bool) :
    planSum (compute_plan_lib a f1 f2)
      = treasury_amount a + team_amount_lib a f1 f2
        + first_ref_amount a f1 + second_ref_amount a f2 := by
  unfold compute_plan_lib planSum
  cases h1 : (f1 && decide (0 < first_ref_amount a f1)) <;>
    cases h2 : (f2 && decide (0 < second_ref_amount a f2)) <;>
      simp [first_zero_of_skip, second_zero_of_skip, h1, h2] <;> omega

lemma planSum_contract (a : Nat) (f1 f2 : Bool) :
    planSum (compute_plan_contract a f1 f2)
      = treasury_amount a + team_amount_contract a f1 f2
        + first_ref_amount a f1 + second_ref_amount a f2 := by
  unfold compute_plan_contract planSum
  cases h1 : (f1 && decide (0 < first_ref_amount a f1)) <;>
    cases h2 : (f2 && decide (0 < second_ref_amount a f2)) <;>
      simp [first_zero_of_skip, second_zero_of_skip, h1, h2] <;> omega

/-- Claim C1 (corrected).  Conservation holds for the lib.rs variant: in the
overflow-free region the plan amounts always sum to the input amount.  The
contract.rs variant violates it: when the second-referrer flag is unset its
plan sums to the amount plus min(amount * 5 / 100, 50_000_000), because
line 89 adds second_ref_portion back onto the team share without having
deducted it. -/
theorem conservation :
    (∀ (a : Nat) (f1 f2 : Bool), a * 50 < 2 ^ 64 →
      planSum (compute_plan_lib a f1 f2) = a) ∧
    (∀ (a : Nat) (f1 f2 : Bool), a * 50 < 2 ^ 64 →
      planSum (compute_plan_contract a f1 f2)
        = a + (if f2 then 0 else min (a * 5 / 100) SECOND_REF_MAX)) := by
  constructor
  · intro a f1 f2 h
    have hle := shares_le f1 f2 h
    rw [planSum_lib, team_lib_eq f1 f2 h]
    omega
  · intro a f1 f2 h
    have hle := shares_le f1 f2 h
    have h5 : a * 5 < 2 ^ 64 := by omega
    rw [planSum_contract, team_contract_eq f1 f2 h, team_lib_eq f1 f2 h,
      portion_eq f2 h5]
    cases f2 <;> simp [second_ref_amount] at hle ⊢ <;> omega

/-- Witness for the C1 theorem at concrete inputs. -/
theorem conservation_witness :
    planSum (compute_plan_lib 1000000 true true) = 1000000 ∧
    planSum (compute_plan_contract 1000000 true false)
      = 1000000
        + (if (false : Bool) then 0 else min (1000000 * 5 / 100) SECOND_REF_MAX) :=
  ⟨conservation.1 1000000 true true (by norm_num),
   conservation.2 1000000 true false (by norm_num)⟩

/-- Counterexample to claim C1 as stated: at amount 1_000_000 with both
flags unset (no overflow), the contract.rs plan sums to 1_050_000, not
1_000_000. -/
theorem conservation_counterexample :
    1000000 * 50 < 2 ^ 64 ∧
    planSum (compute_plan_contract 1000000 false false) ≠ 1000000 :=
  ⟨by norm_num, by decide⟩

/-- Counterexample to claim C2 as stated: the contract.rs variant gives the
team 350_000, not 300_000, in the first-only case. -/
theorem first_only_counterexample :
    (Role.Team, 350000) ∈ compute_plan_contract 1000000 true false ∧
    (Role.Team, 300000) ∉ compute_plan_contract 1000000 true false := by
  decide

/-- Claim C2 (corrected).  First-only case at amount 1_000_000: the lib.rs
variant produces Treasury 500_000, Team 300_000, FirstReferrer 200_000 (no
SecondReferrer entry, sum 1_000_000); the contract.rs variant instead gives
the team 350_000, redirecting the absent second referrer's 50_000 into the
team share (sum 1_050_000). -/
theorem first_only_case :
    compute_plan_lib 1000000 true false
      = [(Role.Treasury, 500000), (Role.Team, 300000),
         (Role.FirstReferrer, 200000)] ∧
    planSum (compute_plan_lib 1000000 true false) = 1000000 ∧
    compute_plan_contract 1000000 true false
      = [(Role.Treasury, 500000), (Role.Team, 350000),
         (Role.FirstReferrer, 200000)] :=
  ⟨by decide, by decide, by decide⟩

/-- Counterexample to claim C3 as stated: a 9-byte input (shorter than 10
bytes) is not rejected; both variants return a transfer plan. -/
theorem malformed_counterexample :
    ([0, 0, 0, 0, 0, 0, 0, 0, 0] : List Nat).length < 10 ∧
    process_instruction_lib [0, 0, 0, 0, 0, 0, 0, 0, 0]
      = Except.ok [(Role.Treasury, 0), (Role.Team, 0)] ∧
    process_instruction_contract [0, 0, 0, 0, 0, 0, 0, 0, 0]
      = Except.ok [(Role.Treasury, 0), (Role.Team, 0)] :=
  ⟨by decide, by rfl, by rfl⟩

/-- Claim C3 (corrected).  Both variants reject an input shorter than
8 bytes (not 10) with InvalidInstructionData, producing no plan. -/
theorem malformed_rejected : ∀ d : List Nat, d.length < 8 →
    process_instruction_lib d
      = Except.error ProgramError.InvalidInstructionData ∧
    process_instruction_contract d
      = Except.error ProgramError.InvalidInstructionData := by
  intro d h
  unfold process_instruction_lib process_instruction_contract
  rw [if_pos h, if_pos h]
  exact ⟨rfl, rfl⟩

/-- Witness for the C3 theorem at a concrete short input. -/
theorem malformed_rejected_witness :
    process_instruction_lib [1, 2, 3]
      = Except.error ProgramError.InvalidInstructionData ∧
    process_instruction_contract [1, 2, 3]
      = Except.error ProgramError.InvalidInstructionData :=
  malformed_rejected [1, 2, 3] (by decide)

/-- Claim C4 (code bug).  At amount 2^63 the multiplication amount * 50
overflows u64; the unchecked release-mode multiplication wraps to 0, and
lib.rs returns a plan (Treasury 0, Team 2^63) instead of rejecting the
request. -/
theorem overflow_wraps :
    readU64LE [0, 0, 0, 0, 0, 0, 0, 128, 0, 0] = 9223372036854775808 ∧
    2 ^ 64 ≤ 9223372036854775808 * 50 ∧
    process_instruction_lib [0, 0, 0, 0, 0, 0, 0, 128, 0, 0]
      = Except.ok [(Role.Treasury, 0), (Role.Team, 9223372036854775808)] :=
  ⟨by decide, by norm_num, by rfl⟩

/-- Claim C5 (confirmed).  With the flag set and no overflow, the first
referrer share is min(amount * 20 / 100, 200_000_000) - in particular
exactly the cap 200_000_000 at amount 2_000_000_000 - and the second
referrer share is min(amount * 5 / 100, 50_000_000). -/
theorem cap_enforcement :
    (∀ a : Nat, a * 20 < 2 ^ 64 →
      first_ref_amount a true = min (a * 20 / 100) FIRST_REF_MAX) ∧
    first_ref_amount 2000000000 true = 200000000 ∧
    (∀ a : Nat, a * 5 < 2 ^ 64 →
      second_ref_amount a true = min (a * 5 / 100) SECOND_REF_MAX) := by
  refine ⟨?_, by decide, ?_⟩
  · intro a h; rw [first_eq true h]; simp
  · intro a h; rw [second_eq true h]; simp

/-- Witness for the C5 theorem at concrete inputs. -/
theorem cap_enforcement_witness :
    first_ref_amount 300 true = min (300 * 20 / 100) FIRST_REF_MAX ∧
    second_ref_amount 300 true = min (300 * 5 / 100) SECOND_REF_MAX :=
  ⟨cap_enforcement.1 300 (by norm_num),
   cap_enforcement.2.2 300 (by norm_num)⟩

/-- Claim C6 (confirmed).  At amount 0, for every flag combination, both
variants produce exactly the plan Treasury 0, Team 0, with no referrer
entries. -/
theorem zero_amount : ∀ f1 f2 : Bool,
    compute_plan_lib 0 f1 f2 = [(Role.Treasury, 0), (Role.Team, 0)] ∧
    compute_plan_contract 0 f1 f2 = [(Role.Treasury, 0), (Role.Team, 0)] := by
  decide

/-- Claim C7 (confirmed).  In the overflow-free region every individual
share of either variant is at most the amount, and the percentage shares
sum to at most the amount, so the team subtraction cannot underflow. -/
theorem no_overshoot : ∀ (a : Nat) (f1 f2 : Bool), a * 50 < 2 ^ 64 →
    treasury_amount a ≤ a ∧ first_ref_amount a f1 ≤ a ∧
    second_ref_amount a f2 ≤ a ∧ team_amount_lib a f1 f2 ≤ a ∧
    team_amount_contract a f1 f2 ≤ a ∧
    treasury_amount a + first_ref_amount a f1 + second_ref_amount a f2 ≤ a := by
  intro a f1 f2 h
  have hle := shares_le f1 f2 h
  have h4 := team_lib_le f1 f2 h
  have h5 := team_contract_le f1 f2 h
  exact ⟨by omega, by omega, by omega, h4, h5, hle⟩

/-- Witness for the C7 theorem at a concrete input. -/
theorem no_overshoot_witness :
    treasury_amount 1000000 ≤ 1000000 ∧
    first_ref_amount 1000000 true ≤ 1000000 ∧
    second_ref_amount 1000000 false ≤ 1000000 ∧
    team_amount_lib 1000000 true false ≤ 1000000 ∧
    team_amount_contract 1000000 true false ≤ 1000000 ∧
    treasury_amount 1000000 + first_ref_amount 1000000 true
      + second_ref_amount 1000000 false ≤ 1000000 :=
  no_overshoot 1000000 true false (by norm_num)

/-- Claim C8 (confirmed).  Both variants emit roles in the fixed order
Treasury, Team, FirstReferrer, SecondReferrer; Treasury and Team are always
present, and each referrer entry is present exactly when its flag is set
and its computed amount is positive. -/
theorem plan_order : ∀ (a : Nat) (f1 f2 : Bool),
    (compute_plan_lib a f1 f2).map Prod.fst
      = [Role.Treasury, Role.Team]
        ++ (if f1 = true ∧ 0 < first_ref_amount a f1 then
              [Role.FirstReferrer] else [])
        ++ (if f2 = true ∧ 0 < second_ref_amount a f2 then
              [Role.SecondReferrer] else []) ∧
    (compute_plan_contract a f1 f2).map Prod.fst
      = [Role.Treasury, Role.Team]
        ++ (if f1 = true ∧ 0 < first_ref_amount a f1 then
              [Role.FirstReferrer] else [])
        ++ (if f2 = true ∧ 0 < second_ref_amount a f2 then
              [Role.SecondReferrer] else []) := by
  intro a f1 f2
  constructor <;>
    · simp only [compute_plan_lib, compute_plan_contract]
      by_cases h1 : 0 < first_ref_amount a f1 <;>
        by_cases h2 : 0 < second_ref_amount a f2 <;>
          cases f1 <;> cases f2 <;> simp [h1, h2]

/-- Claim C9 (confirmed).  With the second flag set the two variants produce
identical plans; with it unset the contract.rs plan equals the lib.rs plan
with min(amount * 5 / 100, 50_000_000) added to the Team entry and every
other entry unchanged. -/
theorem variant_relation :
    (∀ (a : Nat) (f1 : Bool),
      compute_plan_contract a f1 true = compute_plan_lib a f1 true) ∧
    (∀ (a : Nat) (f1 : Bool), a * 50 < 2 ^ 64 →
      compute_plan_contract a f1 false
        = (compute_plan_lib a f1 false).map
            (fun p => if p.1 = Role.Team then
              (p.1, p.2 + min (a * 5 / 100) SECOND_REF_MAX) else p)) := by
  constructor
  · intro a f1
    have hp : second_ref_portion a true = 0 := by simp [second_ref_portion]
    have hteam : team_amount_contract a f1 true = team_amount_lib a f1 true := by
      calc team_amount_contract a f1 true
          = wadd (team_amount_lib a f1 true) (second_ref_portion a true) := rfl
        _ = wadd (team_amount_lib a f1 true) 0 := by rw [hp]
        _ = team_amount_lib a f1 true := by
            unfold wadd
            rw [Nat.add_zero]
            exact Nat.mod_eq_of_lt (wsub_lt _ _)
    unfold compute_plan_contract compute_plan_lib
    rw [hteam]
  · intro a f1 h
    have h5 : a * 5 < 2 ^ 64 := by omega
    have hm : second_ref_portion a false = min (a * 5 / 100) SECOND_REF_MAX := by
      rw [portion_eq false h5]; simp
    have hteam : team_amount_contract a f1 false
        = team_amount_lib a f1 false + min (a * 5 / 100) SECOND_REF_MAX := by
      rw [team_contract_eq f1 false h, hm]
    unfold compute_plan_contract compute_plan_lib
    rw [hteam]
    cases hf : (f1 && decide (0 < first_ref_amount a f1)) <;>
      simp [hf, second_ref_amount]

/-- Witness for the C9 theorem at concrete inputs. -/
theorem variant_relation_witness :
    compute_plan_contract 1000000 true true = compute_plan_lib 1000000 true true ∧
    compute_plan_contract 1000000 true false
      = (compute_plan_lib 1000000 true false).map
          (fun p => if p.1 = Role.Team then
            (p.1, p.2 + min (1000000 * 5 / 100) SECOND_REF_MAX) else p) :=
  ⟨variant_relation.1 1000000 true,
   variant_relation.2 1000000 true (by norm_num)⟩

/-- Claim C10 (confirmed).  Inputs of length exactly 8 or 9 bytes are not
rejected: both variants process them with the missing flag bytes defaulting
to false (byte 9 is always absent, so the second flag is false; for an
8-byte input the first flag is false as well, since flagAt returns false on
an absent byte). -/
theorem lenient_lengths : ∀ d : List Nat, d.length = 8 ∨ d.length = 9 →
    process_instruction_lib d
      = Except.ok (compute_plan_lib (readU64LE d) (flagAt d 8) false) ∧
    process_instruction_contract d
      = Except.ok (compute_plan_contract (readU64LE d) (flagAt d 8) false) := by
  intro d h
  have h9 : flagAt d 9 = false := by
    unfold flagAt
    rw [List.get?_eq_none.mpr (by omega)]
  have hlen : ¬ d.length < 8 := by omega
  unfold process_instruction_lib process_instruction_contract
  rw [if_neg hlen, if_neg hlen, h9]
  exact ⟨rfl, rfl⟩

/-- Witness for the C10 theorem at a concrete 9-byte input. -/
theorem lenient_lengths_witness :
    process_instruction_lib [1, 0, 0, 0, 0, 0, 0, 0, 7]
      = Except.ok (compute_plan_lib (readU64LE [1, 0, 0, 0, 0, 0, 0, 0, 7])
          (flagAt [1, 0, 0, 0, 0, 0, 0, 0, 7] 8) false) ∧
    process_instruction_contract [1, 0, 0, 0, 0, 0, 0, 0, 7]
      = Except.ok (compute_plan_contract (readU64LE [1, 0, 0, 0, 0, 0, 0, 0, 7])
          (flagAt [1, 0, 0, 0, 0, 0, 0, 0, 7] 8) false) :=
  lenient_lengths [1, 0, 0, 0, 0, 0, 0, 0, 7] (Or.inr (by decide))

end Simo
